import Mathlib

/-!
# Verification of the `wakeful` waker-construction mechanism

A shallow embedding of the crate's core (`src/lib.rs` / `src/wakers.rs`,
which contain the same mechanism under the names `create_raw_waker` /
`create_thin` / `create_boxed` resp. `into_raw_waker` / `into_thin` /
`into_boxed`), and of the blocking-wait helper (`src/blocking.rs`).

Modelling decisions:
* A notifier type `W` is a `WakeType`: its static size in bytes
  (`mem::size_of::<W>()`), its `clone` behaviour as a function on value
  bytes, and an optional override of the consuming `wake`.
* A value of `W` is its in-memory byte representation, a `List Nat` of
  length `W.size`.
* The observable effect of the machinery is a trace of `Event`s recording
  which underlying calls happen (`W::wake_by_ref`, an overridden
  `W::wake`, or the release of a value's resources).
* The data slot of a `RawWaker` is either a raw pointer-sized word of
  bytes (thin representation) or the address of a heap block (boxed
  representation); the heap is explicit state and counts allocations.
* The four `RawWakerVTable` closures become `vtable_clone`, `vtable_wake`,
  `vtable_wake_by_ref`, `vtable_drop`, each dispatching on the
  representation the handle was built with.  Dereferencing a freed heap
  block is modelled as `none`.
-/

namespace Wakeful

/-- `mem::size_of::<*const ()>()` on the 64-bit target: 8 bytes. -/
def ptrSize : Nat := 8

/-- An observable event of the machinery: a call of the underlying
notifier's `wake_by_ref`, a call of an overridden consuming `wake`, or the
release (drop) of a notifier value's resources.  Values are identified by
their byte representation. -/
inductive Event where
  | wakeByRefCall (value : List Nat)
  | wakeOwnedCall (value : List Nat)
  | releaseValue (value : List Nat)
deriving DecidableEq, Repr

/-- A concrete notifier type `W` implementing the `Wake` trait:
its static size, its `Clone` implementation on byte representations, and
an optional override of the provided consuming `wake` method. -/
structure WakeType where
  size : Nat
  cloneBytes : List Nat → List Nat
  wakeOverride : Option (List Nat → List Event)

/-- `W::wake_by_ref(&self)`: the required method; observably, one call of
the underlying notification action on the value. -/
def WakeType.wake_by_ref (_W : WakeType) (v : List Nat) : List Event :=
  [Event.wakeByRefCall v]

/-- Releasing a value's resources (the value being dropped). -/
def dropTrace (v : List Nat) : List Event :=
  [Event.releaseValue v]

/-- `W::wake(self)` (src/lib.rs lines 124-126): by default
`self.wake_by_ref()` followed by `self` going out of scope (release);
an implementer may override it. -/
def WakeType.wake (W : WakeType) (v : List Nat) : List Event :=
  match W.wakeOverride with
  | some f => f v
  | none => W.wake_by_ref v ++ dropTrace v

/-- The two representations a handle's dispatch table can be specialized
for. -/
inductive Rep where
  | thin
  | boxed
deriving DecidableEq, Repr

/-- The data slot of a `RawWaker`: either the raw pointer-sized word
itself holding the notifier's bytes (thin) or the address of a heap
allocation holding the notifier (boxed). -/
inductive Slot where
  | word (bytes : List Nat)
  | addr (a : Nat)
deriving DecidableEq, Repr

/-- The explicit heap: a list of blocks indexed by address (`none` once
freed) together with a running count of allocations performed. -/
structure Heap where
  blocks : List (Option (List Nat))
  allocCount : Nat
deriving Repr

/-- `Box::new`: allocate a fresh block, returning its address. -/
def Heap.alloc (h : Heap) (v : List Nat) : Nat × Heap :=
  (h.blocks.length, ⟨h.blocks ++ [some v], h.allocCount + 1⟩)

/-- Dereference address `a`; `none` if out of range or freed. -/
def Heap.get (h : Heap) (a : Nat) : Option (List Nat) :=
  (h.blocks.getD a none)

/-- Free the block at address `a`. -/
def Heap.free (h : Heap) (a : Nat) : Heap :=
  ⟨h.blocks.set a none, h.allocCount⟩

/-- A `RawWaker`: the data slot paired with the dispatch table, the
latter identified by the concrete type and representation it was
specialized for. -/
structure RawWaker where
  wakeType : WakeType
  rep : Rep
  slot : Slot

/-- The all-zero null-pointer word `ptr::null()` the thin encode starts
from (src/lib.rs line 193). -/
def nullWord : List Nat :=
  List.replicate ptrSize 0

/-- `ptr::copy_nonoverlapping(&wake, &mut data as *mut W, 1)`: overwrite
the low `n` bytes of `dst` with the bytes of `src`. -/
def writeLow (dst src : List Nat) (n : Nat) : List Nat :=
  src.take n ++ dst.drop n

/-- The word the thin encode stores in the data slot: a null word whose
low `size_of(W)` bytes are the notifier's bytes (src/lib.rs lines
193-209). -/
def thin_data (W : WakeType) (v : List Nat) : List Nat :=
  writeLow nullWord v W.size

/-- Reinterpreting the data word as a `W`
(`&data as *const *const () as *const W` / `transmute_copy`): only the
low `size_of(W)` bytes are read. -/
def thinRead (W : WakeType) (bytes : List Nat) : List Nat :=
  bytes.take W.size

/-- The condition of the `debug_assert!` guarding the thin encode
(src/lib.rs line 197, src/wakers.rs line 102). -/
def thin_size_ok (W : WakeType) : Bool :=
  decide (W.size ≤ ptrSize)

/-- `debug_assert!`: aborts (no result at all, not a recoverable error
value) when the asserted condition is false. -/
def debug_assert (b : Bool) : Option Unit :=
  if b then some () else none

/-- `create_thin` (src/lib.rs lines 192-232): assert the size invariant,
then build the data word by copying the notifier's bytes over a null
word; the original value is `mem::forget`-ten (no release event).  The
paired dispatch table is the thin one for `W`. -/
def create_thin (W : WakeType) (v : List Nat) (h : Heap) :
    Option (RawWaker × Heap) :=
  match debug_assert (thin_size_ok W) with
  | some _ => some (⟨W, Rep.thin, Slot.word (thin_data W v)⟩, h)
  | none => none

/-- `create_boxed` (src/lib.rs lines 167-185): move the notifier into a
fresh heap allocation and store its address in the slot.  The paired
dispatch table is the boxed one for `W`. -/
def create_boxed (W : WakeType) (v : List Nat) (h : Heap) :
    RawWaker × Heap :=
  let (a, h2) := h.alloc v
  (⟨W, Rep.boxed, Slot.addr a⟩, h2)

/-- `create_raw_waker` (src/lib.rs lines 155-161, identically
`into_raw_waker` in src/wakers.rs lines 141-145): select thin exactly
when `size_of(W) <= size_of(pointer)`, boxed otherwise. -/
def create_raw_waker (W : WakeType) (v : List Nat) (h : Heap) :
    Option (RawWaker × Heap) :=
  if W.size ≤ ptrSize then create_thin W v h
  else some (create_boxed W v h)

/-- The clone entry of the dispatch table.  Thin (src/lib.rs lines
218-220): borrow `W` from the low bytes of the word, clone it, and re-run
`create_raw_waker` on the clone.  Boxed (src/lib.rs lines 171-173):
borrow the pointee, clone it, and re-run `create_raw_waker`. -/
def vtable_clone (rw : RawWaker) (h : Heap) : Option (RawWaker × Heap) :=
  match rw.rep, rw.slot with
  | Rep.thin, Slot.word b =>
      create_raw_waker rw.wakeType
        (rw.wakeType.cloneBytes (thinRead rw.wakeType b)) h
  | Rep.boxed, Slot.addr a =>
      match h.get a with
      | some v => create_raw_waker rw.wakeType (rw.wakeType.cloneBytes v) h
      | none => none
  | _, _ => none

/-- The consuming-wake entry of the dispatch table.  Thin (src/lib.rs
lines 221-223): `transmute_copy` the low bytes into an owned `W` and call
`wake` on it; the heap is untouched.  Boxed (src/lib.rs lines 174-176):
`Box::from_raw` reclaims the block, the value's `wake` runs and the block
is released. -/
def vtable_wake (rw : RawWaker) (h : Heap) : Option (List Event × Heap) :=
  match rw.rep, rw.slot with
  | Rep.thin, Slot.word b =>
      some (rw.wakeType.wake (thinRead rw.wakeType b), h)
  | Rep.boxed, Slot.addr a =>
      match h.get a with
      | some v => some (rw.wakeType.wake v, h.free a)
      | none => none
  | _, _ => none

/-- The wake-by-ref entry of the dispatch table.  Thin (src/lib.rs lines
224-226): borrow `W` from the low bytes and call `wake_by_ref`; the slot
is left intact.  Boxed (src/lib.rs lines 177-179): dereference without
taking ownership; the block stays allocated. -/
def vtable_wake_by_ref (rw : RawWaker) (h : Heap) :
    Option (List Event × Heap) :=
  match rw.rep, rw.slot with
  | Rep.thin, Slot.word b =>
      some (rw.wakeType.wake_by_ref (thinRead rw.wakeType b), h)
  | Rep.boxed, Slot.addr a =>
      match h.get a with
      | some v => some (rw.wakeType.wake_by_ref v, h)
      | none => none
  | _, _ => none

/-- The drop entry of the dispatch table.  Thin (src/lib.rs lines
227-229): `transmute_copy` the low bytes into an owned `W` and let it
fall out of scope (release).  Boxed (src/lib.rs lines 180-182):
`Box::from_raw` reclaims and frees the block, releasing the value. -/
def vtable_drop (rw : RawWaker) (h : Heap) : Option (List Event × Heap) :=
  match rw.rep, rw.slot with
  | Rep.thin, Slot.word b =>
      some (dropTrace (thinRead rw.wakeType b), h)
  | Rep.boxed, Slot.addr a =>
      match h.get a with
      | some v => some (dropTrace v, h.free a)
      | none => none
  | _, _ => none

/-- The notifier value a live handle currently denotes: the low
`size_of(W)` bytes of the word (thin) or the pointee of its heap block
(boxed). -/
def handleValue (rw : RawWaker) (h : Heap) : Option (List Nat) :=
  match rw.rep, rw.slot with
  | Rep.thin, Slot.word b => some (thinRead rw.wakeType b)
  | Rep.boxed, Slot.addr a => h.get a
  | _, _ => none

/-- A thin handle for `W` over a given data word. -/
def mkThin (W : WakeType) (b : List Nat) : RawWaker :=
  ⟨W, Rep.thin, Slot.word b⟩

/-- Iterate the wake-by-ref dispatch `n` times on the same handle,
threading the heap and concatenating the emitted events. -/
def wake_by_ref_iter (rw : RawWaker) (h : Heap) : Nat → Option (List Event × Heap)
  | 0 => some ([], h)
  | Nat.succ n =>
    match vtable_wake_by_ref rw h with
    | some (tr, h2) =>
      match wake_by_ref_iter rw h2 n with
      | some (tr2, h3) => some (tr ++ tr2, h3)
      | none => none
    | none => none

/-! ## The blocking-wait helper (src/blocking.rs) -/

/-- A model future for the blocking-wait scenario: it reports
`Poll::Pending` exactly `pendings` more times before reporting
`Poll::Ready value`. -/
structure FutureModel where
  pendings : Nat
  value : Nat
deriving DecidableEq, Repr

/-- The outcome of one poll. -/
inductive PollResult where
  | ready (v : Nat)
  | pending (rest : FutureModel)
deriving DecidableEq, Repr

/-- Poll the model future once. -/
def FutureModel.poll (f : FutureModel) : PollResult :=
  match f.pendings with
  | 0 => PollResult.ready f.value
  | Nat.succ k => PollResult.pending ⟨k, f.value⟩

/-- The observable outcome of `blocking_wait`: the returned value, how
many times the future was polled, and how many times the calling thread
was parked. -/
structure BlockStats where
  result : Nat
  polls : Nat
  parks : Nat
deriving DecidableEq, Repr

/-- `Blocking::blocking_wait` (src/blocking.rs lines 15-29): loop polling
the future; return the output when ready, park the current thread when
pending.  Polls and parks are counted. -/
def blocking_wait (f : FutureModel) : BlockStats :=
  match hp : f.poll with
  | PollResult.ready v => ⟨v, 1, 0⟩
  | PollResult.pending f2 =>
    have hlt : f2.pendings < f.pendings := by
      unfold FutureModel.poll at hp
      cases hn : f.pendings with
      | zero => rw [hn] at hp; exact absurd hp (by simp)
      | succ k =>
        rw [hn] at hp
        simp only [PollResult.pending.injEq] at hp
        rw [← hp]
        simp
    let s := blocking_wait f2
    ⟨s.result, s.polls + 1, s.parks + 1⟩
termination_by f.pendings

/-! ## Concrete instances used to exercise the definitions -/

/-- A pointer-sized notifier type (like `Impl(Arc<AtomicUsize>)` in the
tests): 8 bytes, `Clone` copies the bytes, no `wake` override. -/
def exThinType : WakeType := ⟨8, fun b => b, none⟩

/-- A notifier type strictly larger than a pointer (like
`Impl(Arc<AtomicUsize>, usize)` in the tests): 16 bytes. -/
def exBoxedType : WakeType := ⟨16, fun b => b, none⟩

/-- A notifier type strictly smaller than a pointer: 1 byte. -/
def exSmallType : WakeType := ⟨1, fun b => b, none⟩

/-- The empty heap. -/
def exHeap0 : Heap := ⟨[], 0⟩

/-- An 8-byte value. -/
def exBytes8 : List Nat := [1, 2, 3, 4, 5, 6, 7, 8]

/-- A 16-byte value. -/
def exBytes16 : List Nat := exBytes8 ++ exBytes8

/-! ## Shared lemmas about the heap and the constructors -/

theorem heap_get_some_lt {h : Heap} {a : Nat} {v : List Nat}
    (hg : h.get a = some v) : a < h.blocks.length := by
  unfold Heap.get at hg
  by_contra hn
  push_neg at hn
  rw [List.getD_eq_getElem?_getD, List.getElem?_eq_none hn] at hg
  simp at hg

theorem heap_get_alloc_lt {h : Heap} {a : Nat} (v : List Nat)
    (hl : a < h.blocks.length) : (h.alloc v).2.get a = h.get a := by
  unfold Heap.alloc Heap.get
  simp only [List.getD_eq_getElem?_getD, List.getElem?_append_left hl]

theorem heap_get_alloc_self (h : Heap) (v : List Nat) :
    (h.alloc v).2.get h.blocks.length = some v := by
  unfold Heap.alloc Heap.get
  simp [List.getD_eq_getElem?_getD, List.getElem?_concat_length]

theorem heap_get_free_ne {h : Heap} {a b : Nat} (hne : b ≠ a) :
    (h.free b).get a = h.get a := by
  unfold Heap.free Heap.get
  simp only [List.getD_eq_getElem?_getD, List.getElem?_set_ne hne]

theorem heap_alloc_count (h : Heap) (v : List Nat) :
    (h.alloc v).2.allocCount = h.allocCount + 1 := rfl

theorem heap_free_count (h : Heap) (a : Nat) :
    (h.free a).allocCount = h.allocCount := rfl

theorem create_raw_waker_thin (W : WakeType) (v : List Nat) (h : Heap)
    (hle : W.size ≤ ptrSize) :
    create_raw_waker W v h = some (mkThin W (thin_data W v), h) := by
  unfold create_raw_waker create_thin debug_assert thin_size_ok mkThin
  simp [hle]

theorem create_raw_waker_boxed (W : WakeType) (v : List Nat) (h : Heap)
    (hgt : ptrSize < W.size) :
    create_raw_waker W v h =
      some (⟨W, Rep.boxed, Slot.addr h.blocks.length⟩, (h.alloc v).2) := by
  unfold create_raw_waker create_boxed Heap.alloc
  simp [Nat.not_le.mpr hgt]

theorem create_raw_waker_isSome (W : WakeType) (v : List Nat) (h : Heap) :
    (create_raw_waker W v h).isSome = true := by
  by_cases hle : W.size ≤ ptrSize
  · rw [create_raw_waker_thin W v h hle]; rfl
  · rw [create_raw_waker_boxed W v h (Nat.not_le.mp hle)]; rfl

theorem create_raw_waker_cases {W : WakeType} {v : List Nat} {h : Heap}
    {r : RawWaker} {h2 : Heap}
    (hc : create_raw_waker W v h = some (r, h2)) :
    (W.size ≤ ptrSize ∧ r = mkThin W (thin_data W v) ∧ h2 = h) ∨
    (ptrSize < W.size ∧ r = ⟨W, Rep.boxed, Slot.addr h.blocks.length⟩ ∧
      h2 = (h.alloc v).2) := by
  by_cases hle : W.size ≤ ptrSize
  · left
    rw [create_raw_waker_thin W v h hle] at hc
    simp only [Option.some.injEq, Prod.mk.injEq] at hc
    exact ⟨hle, hc.1.symm, hc.2.symm⟩
  · right
    have hgt := Nat.not_le.mp hle
    rw [create_raw_waker_boxed W v h hgt] at hc
    simp only [Option.some.injEq, Prod.mk.injEq] at hc
    exact ⟨hgt, hc.1.symm, hc.2.symm⟩

theorem create_raw_waker_spec {W : WakeType} {v : List Nat} {h : Heap}
    {r : RawWaker} {h2 : Heap}
    (hc : create_raw_waker W v h = some (r, h2)) :
    r.wakeType = W ∧ (r.rep = Rep.thin ↔ W.size ≤ ptrSize) := by
  rcases create_raw_waker_cases hc with ⟨hle, hr, -⟩ | ⟨hgt, hr, -⟩
  · subst hr; exact ⟨rfl, by simp [mkThin, hle]⟩
  · subst hr
    refine ⟨rfl, ?_⟩
    simp only [iff_false, Nat.not_le.mpr hgt]
    simp

theorem rep_eq_of_thin_iff {r1 r2 : RawWaker} {P : Prop}
    (h1 : r1.rep = Rep.thin ↔ P) (h2 : r2.rep = Rep.thin ↔ P) :
    r2.rep = r1.rep := by
  cases hr1 : r1.rep <;> cases hr2 : r2.rep <;> simp_all

theorem thinRead_thin_data {W : WakeType} {v : List Nat}
    (hv : v.length = W.size) : thinRead W (thin_data W v) = v := by
  unfold thinRead thin_data writeLow
  rw [← hv, List.take_length, List.take_left]

theorem vtable_wake_by_ref_of_value {r : RawWaker} {h : Heap} {v : List Nat}
    (hv : handleValue r h = some v) :
    vtable_wake_by_ref r h = some (r.wakeType.wake_by_ref v, h) := by
  rcases r with ⟨W, rep, slot⟩
  cases rep <;> cases slot <;> simp_all [handleValue, vtable_wake_by_ref]

theorem dispatch_isSome_of_value {r : RawWaker} {h : Heap} {v : List Nat}
    (hv : handleValue r h = some v) :
    (vtable_wake_by_ref r h).isSome = true ∧
    (vtable_wake r h).isSome = true ∧
    (vtable_clone r h).isSome = true ∧
    (vtable_drop r h).isSome = true := by
  rcases r with ⟨W, rep, slot⟩
  cases rep <;> cases slot <;>
    simp_all [handleValue, vtable_wake_by_ref, vtable_wake, vtable_clone,
      vtable_drop, create_raw_waker_isSome]

theorem vtable_wake_heap_cases {r2 : RawWaker} {h2 : Heap}
    {tr : List Event} {h3 : Heap}
    (hw : vtable_wake r2 h2 = some (tr, h3)) :
    h3 = h2 ∨ ∃ a2, r2.slot = Slot.addr a2 ∧ h3 = h2.free a2 := by
  rcases r2 with ⟨W, rep, slot⟩
  cases rep <;> cases slot <;> simp_all [vtable_wake]
  next a =>
    rcases hg : h2.get a with - | v
    · rw [hg] at hw; simp at hw
    · rw [hg] at hw
      simp only [Option.some.injEq, Prod.mk.injEq] at hw
      exact Or.inr hw.2.symm

theorem vtable_drop_heap_cases {r2 : RawWaker} {h2 : Heap}
    {tr : List Event} {h3 : Heap}
    (hw : vtable_drop r2 h2 = some (tr, h3)) :
    h3 = h2 ∨ ∃ a2, r2.slot = Slot.addr a2 ∧ h3 = h2.free a2 := by
  rcases r2 with ⟨W, rep, slot⟩
  cases rep <;> cases slot <;> simp_all [vtable_drop]
  next a =>
    rcases hg : h2.get a with - | v
    · rw [hg] at hw; simp at hw
    · rw [hg] at hw
      simp only [Option.some.injEq, Prod.mk.injEq] at hw
      exact Or.inr hw.2.symm

theorem clone_consume_frame {r : RawWaker} {h : Heap} {v : List Nat}
    (hv : handleValue r h = some v) {r2 : RawWaker} {h2 : Heap}
    (hclone : vtable_clone r h = some (r2, h2)) {h3 : Heap}
    (hcons : h3 = h2 ∨ ∃ a2, r2.slot = Slot.addr a2 ∧ h3 = h2.free a2) :
    handleValue r h3 = some v := by
  rcases r with ⟨W, rep, slot⟩
  cases rep <;> cases slot <;> simp_all [handleValue, vtable_clone]
  case boxed.addr a =>
    have ha : a < h.blocks.length := heap_get_some_lt hv
    rcases create_raw_waker_cases hclone with ⟨hle, hr2, hh2⟩ | ⟨hgt, hr2, hh2⟩
    · subst hr2 hh2
      rcases hcons with hh3 | ⟨a2, hslot, -⟩
      · subst hh3; exact hv
      · exact absurd hslot (by simp [mkThin])
    · subst hr2 hh2
      rcases hcons with hh3 | ⟨a2, hslot, hh3⟩
      · subst hh3
        rw [heap_get_alloc_lt _ ha]
        exact hv
      · simp only [Slot.addr.injEq] at hslot
        subst hslot hh3
        rw [heap_get_free_ne (by omega), heap_get_alloc_lt _ ha]
        exact hv

theorem blocking_wait_eq (n v : Nat) :
    blocking_wait ⟨n, v⟩ = ⟨v, n + 1, n⟩ := by
  induction n with
  | zero => rw [blocking_wait]; simp [FutureModel.poll]
  | succ k ih => rw [blocking_wait]; simp [FutureModel.poll, ih]

/-! ## Claims -/

/-- C1: the conversion to a waker selects the thin representation exactly
when `size_of(W) <= size_of(pointer)` and the boxed one otherwise; the
selection is a pure function of the type's static size (not of the value
or of the heap), and the clone dispatch of either representation re-runs
the identical selection for the same type `W`, so every clone carries the
same representation-specific dispatch table (same `W`, same `Rep`) as the
handle it was cloned from. -/
theorem c1_selection_pure_and_clone_consistent
    (W : WakeType) (v v2 : List Nat) (h h2 : Heap)
    (r : RawWaker) (h' : Heap)
    (hc : create_raw_waker W v h = some (r, h')) :
    (r.rep = Rep.thin ↔ W.size ≤ ptrSize)
    ∧ (∀ r2 h2', create_raw_waker W v2 h2 = some (r2, h2') → r2.rep = r.rep)
    ∧ (∀ (b : RawWaker) (hh : Heap) (rc : RawWaker) (hcl : Heap),
        b.wakeType = W → vtable_clone b hh = some (rc, hcl) →
        rc.wakeType = W ∧ rc.rep = r.rep) := by
  obtain ⟨-, hiff⟩ := create_raw_waker_spec hc
  refine ⟨hiff, ?_, ?_⟩
  · intro r2 h2' hc2
    exact rep_eq_of_thin_iff hiff (create_raw_waker_spec hc2).2
  · intro b hh rc hcl hb hclone
    rcases b with ⟨Wb, repb, slotb⟩
    simp only at hb
    subst hb
    cases repb <;> cases slotb <;> simp_all [vtable_clone]
    · exact ⟨(create_raw_waker_spec hclone).1,
        rep_eq_of_thin_iff hiff (create_raw_waker_spec hclone).2⟩
    · next a =>
      rcases hg : hh.get a with - | vv
      · rw [hg] at hclone; simp at hclone
      · rw [hg] at hclone
        exact ⟨(create_raw_waker_spec hclone).1,
          rep_eq_of_thin_iff hiff (create_raw_waker_spec hclone).2⟩

/-- Witness for C1: a pointer-sized type takes the thin path, the
selection ignores value and heap, and clones keep the dispatch table. -/
theorem c1_witness :
    ((mkThin exThinType (thin_data exThinType exBytes8)).rep = Rep.thin ↔
        exThinType.size ≤ ptrSize)
    ∧ (∀ r2 h2', create_raw_waker exThinType exBytes16 exHeap0 =
          some (r2, h2') →
        r2.rep = (mkThin exThinType (thin_data exThinType exBytes8)).rep)
    ∧ (∀ (b : RawWaker) (hh : Heap) (rc : RawWaker) (hcl : Heap),
        b.wakeType = exThinType → vtable_clone b hh = some (rc, hcl) →
        rc.wakeType = exThinType ∧
        rc.rep = (mkThin exThinType (thin_data exThinType exBytes8)).rep) :=
  c1_selection_pure_and_clone_consistent exThinType exBytes8 exBytes16
    exHeap0 exHeap0 _ _ (by rfl)

/-- C3: a notifier type that does not override the consuming `wake`
gets the default behavior: exactly one `wake_by_ref` effect followed by
the release of the value's resources. -/
theorem c3_default_wake_is_wake_by_ref_then_release
    (W : WakeType) (v : List Nat) (hW : W.wakeOverride = none) :
    W.wake v = W.wake_by_ref v ++ dropTrace v := by
  unfold WakeType.wake
  rw [hW]

/-- Witness for C3 at a concrete non-overriding type. -/
theorem c3_witness :
    exThinType.wake exBytes8 =
      exThinType.wake_by_ref exBytes8 ++ dropTrace exBytes8 :=
  c3_default_wake_is_wake_by_ref_then_release exThinType exBytes8 rfl

/-- C7: the thin encode defends `size_of(W) <= size_of(pointer)` with an
aborting assertion (`create_thin` yields no handle at all when the check
fails, rather than a recoverable error value), and under the
representation selector the check can never fire: the conversion is total
and whenever it yields a thin handle the asserted condition holds. -/
theorem c7_thin_assert_never_fires (W : WakeType) (v : List Nat) (h : Heap) :
    (thin_size_ok W = false → create_thin W v h = none)
    ∧ (create_raw_waker W v h).isSome = true
    ∧ (∀ r h2, create_raw_waker W v h = some (r, h2) → r.rep = Rep.thin →
        W.size ≤ ptrSize ∧ thin_size_ok W = true) := by
  refine ⟨?_, create_raw_waker_isSome W v h, ?_⟩
  · intro hf
    unfold create_thin debug_assert
    rw [hf]
    rfl
  · intro r h2 hc hthin
    have hle := (create_raw_waker_spec hc).2.mp hthin
    exact ⟨hle, by unfold thin_size_ok; simp [hle]⟩

/-- Witness for C7 at a concrete type and heap. -/
theorem c7_witness :
    (thin_size_ok exThinType = false →
      create_thin exThinType exBytes8 exHeap0 = none)
    ∧ (create_raw_waker exThinType exBytes8 exHeap0).isSome = true
    ∧ (∀ r h2, create_raw_waker exThinType exBytes8 exHeap0 =
          some (r, h2) →
        r.rep = Rep.thin →
        exThinType.size ≤ ptrSize ∧ thin_size_ok exThinType = true) :=
  c7_thin_assert_never_fires exThinType exBytes8 exHeap0

/-- C9: on a future that reports pending exactly `n` times before
becoming ready with `v`, `blocking_wait` returns `v`, polls `n + 1`
times, and parks the thread once per pending report; in particular the
pending-twice / ready-42 scenario returns 42 with at least one park. -/
theorem c9_blocking_wait_counts (n v : Nat) :
    blocking_wait ⟨n, v⟩ = ⟨v, n + 1, n⟩
    ∧ (blocking_wait ⟨2, 42⟩).result = 42
    ∧ 1 ≤ (blocking_wait ⟨2, 42⟩).parks := by
  refine ⟨blocking_wait_eq n v, ?_, ?_⟩
  · rw [blocking_wait_eq]
  · rw [blocking_wait_eq]
    simp

/-- C2: for every notifier type and value, wake-by-ref (and consuming
wake) on the converted handle has exactly the same wake effect as calling
`W::wake_by_ref` (resp. `W::wake`) on the value directly, whichever
representation was selected. -/
theorem c2_handle_observational_equivalence
    (W : WakeType) (v : List Nat) (h : Heap) (r : RawWaker) (h2 : Heap)
    (hv : v.length = W.size)
    (hc : create_raw_waker W v h = some (r, h2)) :
    (∃ h3, vtable_wake_by_ref r h2 = some (W.wake_by_ref v, h3))
    ∧ (∃ h4, vtable_wake r h2 = some (W.wake v, h4)) := by
  rcases create_raw_waker_cases hc with ⟨hle, hr, hh⟩ | ⟨hgt, hr, hh⟩
  · subst hr hh
    have hread : thinRead W (thin_data W v) = v := thinRead_thin_data hv
    constructor
    · exact ⟨h2, by simp [vtable_wake_by_ref, mkThin, hread]⟩
    · exact ⟨h2, by simp [vtable_wake, mkThin, hread]⟩
  · subst hr hh
    have hget := heap_get_alloc_self h v
    constructor
    · exact ⟨(h.alloc v).2, by simp [vtable_wake_by_ref, hget]⟩
    · exact ⟨((h.alloc v).2).free h.blocks.length,
        by simp [vtable_wake, hget]⟩

/-- Witness for C2 at a concrete pointer-sized type and value. -/
theorem c2_witness :
    (∃ h3, vtable_wake_by_ref (mkThin exThinType (thin_data exThinType exBytes8))
        exHeap0 = some (exThinType.wake_by_ref exBytes8, h3))
    ∧ (∃ h4, vtable_wake (mkThin exThinType (thin_data exThinType exBytes8))
        exHeap0 = some (exThinType.wake exBytes8, h4)) :=
  c2_handle_observational_equivalence exThinType exBytes8 exHeap0 _ _
    (by rfl) (by rfl)

/-- C4: for a notifier type strictly smaller than a pointer, the thin
encode writes exactly `size_of(W)` bytes of the notifier into the data
slot (the bytes at offsets at or beyond `size_of(W)` keep the null
initialization) and all four thin dispatch entries read back exactly
`size_of(W)` bytes: two slot words agreeing on their low `size_of(W)`
bytes are indistinguishable to every dispatch. -/
theorem c4_thin_touches_only_size_bytes
    (W : WakeType) (v b1 b2 : List Nat) (h : Heap)
    (_hlt : W.size < ptrSize) (hv : v.length = W.size)
    (hb : b1.take W.size = b2.take W.size) :
    (thin_data W v).take W.size = v
    ∧ (∀ i, W.size ≤ i → (thin_data W v).getD i 0 = 0)
    ∧ thinRead W b1 = thinRead W b2
    ∧ vtable_clone (mkThin W b1) h = vtable_clone (mkThin W b2) h
    ∧ vtable_wake (mkThin W b1) h = vtable_wake (mkThin W b2) h
    ∧ vtable_wake_by_ref (mkThin W b1) h = vtable_wake_by_ref (mkThin W b2) h
    ∧ vtable_drop (mkThin W b1) h = vtable_drop (mkThin W b2) h := by
  have hread : thinRead W b1 = thinRead W b2 := hb
  have htake : (v.take W.size).length = W.size := by
    rw [List.length_take, hv]
    omega
  refine ⟨thinRead_thin_data hv, ?_, hread, ?_, ?_, ?_, ?_⟩
  · intro i hi
    unfold thin_data writeLow
    rw [List.getD_eq_getElem?_getD, List.getElem?_append_right (by omega),
      htake]
    unfold nullWord
    rw [List.drop_replicate, List.getElem?_replicate]
    split <;> simp
  · simp [vtable_clone, mkThin, hread]
  · simp [vtable_wake, mkThin, hread]
  · simp [vtable_wake_by_ref, mkThin, hread]
  · simp [vtable_drop, mkThin, hread]

/-- Witness for C4: a one-byte type, two slot words agreeing only on the
low byte. -/
theorem c4_witness :
    (thin_data exSmallType [7]).take exSmallType.size = [7]
    ∧ (∀ i, exSmallType.size ≤ i →
        (thin_data exSmallType [7]).getD i 0 = 0)
    ∧ thinRead exSmallType [7, 0, 0, 0, 0, 0, 0, 0] =
        thinRead exSmallType [7, 9, 9, 9, 9, 9, 9, 9]
    ∧ vtable_clone (mkThin exSmallType [7, 0, 0, 0, 0, 0, 0, 0]) exHeap0 =
        vtable_clone (mkThin exSmallType [7, 9, 9, 9, 9, 9, 9, 9]) exHeap0
    ∧ vtable_wake (mkThin exSmallType [7, 0, 0, 0, 0, 0, 0, 0]) exHeap0 =
        vtable_wake (mkThin exSmallType [7, 9, 9, 9, 9, 9, 9, 9]) exHeap0
    ∧ vtable_wake_by_ref (mkThin exSmallType [7, 0, 0, 0, 0, 0, 0, 0])
        exHeap0 =
        vtable_wake_by_ref (mkThin exSmallType [7, 9, 9, 9, 9, 9, 9, 9])
          exHeap0
    ∧ vtable_drop (mkThin exSmallType [7, 0, 0, 0, 0, 0, 0, 0]) exHeap0 =
        vtable_drop (mkThin exSmallType [7, 9, 9, 9, 9, 9, 9, 9]) exHeap0 :=
  c4_thin_touches_only_size_bytes exSmallType [7]
    [7, 0, 0, 0, 0, 0, 0, 0] [7, 9, 9, 9, 9, 9, 9, 9] exHeap0
    (by decide) (by rfl) (by rfl)

/-- C10: the thin data slot starts as the null word and the notifier's
bytes are copied over its low `size_of(W)` bytes, so for a type strictly
smaller than a pointer every high-order byte of the slot is initialized
to the null pattern (zero), and the encode is deterministic: bitwise
identical values yield bitwise identical data words. -/
theorem c10_thin_slot_null_initialized_deterministic
    (W : WakeType) (v v2 : List Nat)
    (_hlt : W.size < ptrSize) (hv : v.length = W.size) :
    thin_data W v = writeLow nullWord v W.size
    ∧ (∀ i, W.size ≤ i → i < ptrSize →
        (thin_data W v)[i]? = some 0)
    ∧ (v = v2 → thin_data W v = thin_data W v2) := by
  refine ⟨rfl, ?_, fun he => by rw [he]⟩
  intro i hi hip
  have htake : (v.take W.size).length = W.size := by
    rw [List.length_take, hv]
    omega
  unfold thin_data writeLow
  rw [List.getElem?_append_right (by omega), htake]
  unfold nullWord
  rw [List.drop_replicate, List.getElem?_replicate]
  split
  · rfl
  · omega

/-- Witness for C10 at a one-byte type. -/
theorem c10_witness :
    (thin_data exSmallType [7] = writeLow nullWord [7] exSmallType.size)
    ∧ (∀ i, exSmallType.size ≤ i → i < ptrSize →
        (thin_data exSmallType [7])[i]? = some 0)
    ∧ ([7] = [7] → thin_data exSmallType [7] = thin_data exSmallType [7]) :=
  c10_thin_slot_null_initialized_deterministic exSmallType [7] [7]
    (by decide) (by rfl)

/-- C6: invoking wake-by-ref `n` times on a live handle produces exactly
`n` calls of the underlying `W::wake_by_ref` and leaves the heap — hence
the data slot and any boxed block — untouched, so the handle stays live
and further wake-by-ref and clone calls remain valid. -/
theorem c6_wake_by_ref_n_times
    (r : RawWaker) (h : Heap) (v : List Nat) (n : Nat)
    (hv : handleValue r h = some v) :
    wake_by_ref_iter r h n =
      some (List.replicate n (Event.wakeByRefCall v), h)
    ∧ (vtable_wake_by_ref r h).isSome = true
    ∧ (vtable_clone r h).isSome = true := by
  obtain ⟨hwbr, -, hcl, -⟩ := dispatch_isSome_of_value hv
  refine ⟨?_, hwbr, hcl⟩
  induction n with
  | zero => simp [wake_by_ref_iter]
  | succ k ih =>
    have hone := vtable_wake_by_ref_of_value hv
    unfold wake_by_ref_iter
    rw [hone]
    simp only []
    rw [ih]
    simp [WakeType.wake_by_ref, List.replicate_succ]

/-- Witness for C6: three wake-by-ref calls on a thin handle. -/
theorem c6_witness :
    wake_by_ref_iter (mkThin exThinType (thin_data exThinType exBytes8))
        exHeap0 3 =
      some (List.replicate 3 (Event.wakeByRefCall exBytes8), exHeap0)
    ∧ (vtable_wake_by_ref (mkThin exThinType (thin_data exThinType exBytes8))
        exHeap0).isSome = true
    ∧ (vtable_clone (mkThin exThinType (thin_data exThinType exBytes8))
        exHeap0).isSome = true :=
  c6_wake_by_ref_n_times _ exHeap0 exBytes8 3 (by rfl)

/-- C8: converting a type that fits in a pointer performs no heap
allocation (the heap is returned unchanged) and its wake-by-ref leaves
the heap unchanged too; converting a type larger than a pointer performs
exactly one allocation, and each clone of the resulting handle performs
exactly one more. -/
theorem c8_allocation_counts
    (Wt Wb : WakeType) (vt vb : List Nat) (h : Heap)
    (hle : Wt.size ≤ ptrSize) (hgt : ptrSize < Wb.size) :
    (∀ r h2, create_raw_waker Wt vt h = some (r, h2) →
      h2 = h ∧ ∀ p, vtable_wake_by_ref r h2 = some p → p.2 = h2)
    ∧ (∀ r h2, create_raw_waker Wb vb h = some (r, h2) →
      h2.allocCount = h.allocCount + 1 ∧
      ∀ r2 h3, vtable_clone r h2 = some (r2, h3) →
        h3.allocCount = h2.allocCount + 1) := by
  constructor
  · intro r h2 hc
    rw [create_raw_waker_thin Wt vt h hle] at hc
    simp only [Option.some.injEq, Prod.mk.injEq] at hc
    obtain ⟨hr, hh⟩ := hc
    subst hr hh
    exact ⟨rfl, fun p hp => by
      simp only [vtable_wake_by_ref, mkThin, Option.some.injEq] at hp
      rw [← hp]⟩
  · intro r h2 hc
    rw [create_raw_waker_boxed Wb vb h hgt] at hc
    simp only [Option.some.injEq, Prod.mk.injEq] at hc
    obtain ⟨hr, hh⟩ := hc
    subst hr hh
    refine ⟨heap_alloc_count h vb, ?_⟩
    intro r2 h3 hcl
    simp only [vtable_clone, heap_get_alloc_self] at hcl
    rw [create_raw_waker_boxed Wb _ _ hgt] at hcl
    simp only [Option.some.injEq, Prod.mk.injEq] at hcl
    rw [← hcl.2, heap_alloc_count]

/-- Witness for C8 at a pointer-sized and a double-pointer-sized type. -/
theorem c8_witness :
    (∀ r h2, create_raw_waker exThinType exBytes8 exHeap0 = some (r, h2) →
      h2 = exHeap0 ∧ ∀ p, vtable_wake_by_ref r h2 = some p → p.2 = h2)
    ∧ (∀ r h2, create_raw_waker exBoxedType exBytes16 exHeap0 =
          some (r, h2) →
      h2.allocCount = exHeap0.allocCount + 1 ∧
      ∀ r2 h3, vtable_clone r h2 = some (r2, h3) →
        h3.allocCount = h2.allocCount + 1) :=
  c8_allocation_counts exThinType exBoxedType exBytes8 exBytes16 exHeap0
    (by decide) (by decide)

/-- C5: cloning a handle and consuming the clone (by consuming wake or by
drop) leaves the original fully usable: it still denotes the same
notifier value, and wake-by-ref, consuming wake, clone and drop all
remain valid on it, because each clone owns an independent slot (thin: a
fresh byte copy; boxed: a fresh heap block). -/
theorem c5_clone_independence
    (r : RawWaker) (h : Heap) (v : List Nat) (r2 : RawWaker) (h2 : Heap)
    (hv : handleValue r h = some v)
    (hclone : vtable_clone r h = some (r2, h2)) :
    (∀ tr h3, vtable_wake r2 h2 = some (tr, h3) →
      handleValue r h3 = some v ∧
      (vtable_wake_by_ref r h3).isSome = true ∧
      (vtable_wake r h3).isSome = true ∧
      (vtable_clone r h3).isSome = true)
    ∧ (∀ tr h3, vtable_drop r2 h2 = some (tr, h3) →
      handleValue r h3 = some v ∧
      (vtable_wake_by_ref r h3).isSome = true ∧
      (vtable_wake r h3).isSome = true ∧
      (vtable_clone r h3).isSome = true) := by
  constructor
  · intro tr h3 hw
    have hval : handleValue r h3 = some v :=
      clone_consume_frame hv hclone (vtable_wake_heap_cases hw)
    obtain ⟨h1, h2', h3', -⟩ := dispatch_isSome_of_value hval
    exact ⟨hval, h1, h2', h3'⟩
  · intro tr h3 hw
    have hval : handleValue r h3 = some v :=
      clone_consume_frame hv hclone (vtable_drop_heap_cases hw)
    obtain ⟨h1, h2', h3', -⟩ := dispatch_isSome_of_value hval
    exact ⟨hval, h1, h2', h3'⟩

/-- Witness for C5: a boxed handle over a one-block heap; its clone
allocates a second block and consuming the clone frees only that one. -/
theorem c5_witness :
    (∀ tr h3,
      vtable_wake (⟨exBoxedType, Rep.boxed, Slot.addr 1⟩ : RawWaker)
          ⟨[some exBytes16, some exBytes16], 2⟩ = some (tr, h3) →
      handleValue (⟨exBoxedType, Rep.boxed, Slot.addr 0⟩ : RawWaker) h3 =
          some exBytes16 ∧
      (vtable_wake_by_ref (⟨exBoxedType, Rep.boxed, Slot.addr 0⟩ : RawWaker)
          h3).isSome = true ∧
      (vtable_wake (⟨exBoxedType, Rep.boxed, Slot.addr 0⟩ : RawWaker)
          h3).isSome = true ∧
      (vtable_clone (⟨exBoxedType, Rep.boxed, Slot.addr 0⟩ : RawWaker)
          h3).isSome = true)
    ∧ (∀ tr h3,
      vtable_drop (⟨exBoxedType, Rep.boxed, Slot.addr 1⟩ : RawWaker)
          ⟨[some exBytes16, some exBytes16], 2⟩ = some (tr, h3) →
      handleValue (⟨exBoxedType, Rep.boxed, Slot.addr 0⟩ : RawWaker) h3 =
          some exBytes16 ∧
      (vtable_wake_by_ref (⟨exBoxedType, Rep.boxed, Slot.addr 0⟩ : RawWaker)
          h3).isSome = true ∧
      (vtable_wake (⟨exBoxedType, Rep.boxed, Slot.addr 0⟩ : RawWaker)
          h3).isSome = true ∧
      (vtable_clone (⟨exBoxedType, Rep.boxed, Slot.addr 0⟩ : RawWaker)
          h3).isSome = true) :=
  c5_clone_independence
    (⟨exBoxedType, Rep.boxed, Slot.addr 0⟩ : RawWaker)
    (⟨[some exBytes16], 1⟩ : Heap) exBytes16
    (⟨exBoxedType, Rep.boxed, Slot.addr 1⟩ : RawWaker)
    (⟨[some exBytes16, some exBytes16], 2⟩ : Heap)
    (by rfl) (by rfl)

end Wakeful
